import Mathlib

/-!
Shallow embedding of `netlify/functions/extract-transcript.js`.

The file under `src/` contains two variants of the Netlify function handler
(separated by a document separator in the source dump) plus browser UI glue:
  * variant A: fetches caption metadata from the platform's internal JSON API
    (`exports.handler`, `extractVideoId`, `findEnglishTrack`,
    `parseTranscriptData`, `formatTimestamp`);
  * variant B: invokes an external subtitle downloader as a subprocess into a
    scratch directory and parses the produced cue-text (WebVTT) file
    (`exports.handler`, `extractTranscript`, `parseVTT`).

Pure functions are translated directly.  I/O boundaries (JSON.parse of the
request body, the HTTPS calls, the subprocess run, the filesystem) are
modelled as explicit parameters / state so the handler's control flow can be
stated and proved.  JavaScript strings are modelled as Lean `String`
(operating on `String.data : List Char` where convenient).
-/

/-! ## JavaScript string primitives -/

/-- The character set of JavaScript's `\s` regex class and of `String.prototype.trim`
(WhiteSpace plus LineTerminator). -/
def jsSpaceChars : List Char :=
  ['\t', '\n', '\u000B', '\u000C', '\r', ' ', '\u00A0', '\u1680',
   '\u2000', '\u2001', '\u2002', '\u2003', '\u2004', '\u2005', '\u2006',
   '\u2007', '\u2008', '\u2009', '\u200A', '\u2028', '\u2029', '\u202F',
   '\u205F', '\u3000', '\uFEFF']

/-- Whether a character is JavaScript whitespace (`\s`, `trim`). -/
def isJsSpace (c : Char) : Bool := jsSpaceChars.contains c

/-- `String.prototype.trim` on a character list: drop whitespace from both ends. -/
def jsTrimL (l : List Char) : List Char :=
  ((l.dropWhile isJsSpace).reverse.dropWhile isJsSpace).reverse

/-- `String.prototype.trim`. -/
def jsTrimStr (s : String) : String := String.mk (jsTrimL s.data)

/-- Bool test that `pre` is a prefix of `l` (JS `String.prototype.startsWith`
at the character-list level). -/
def hasPre : List Char → List Char → Bool
  | [], _ => true
  | _ :: _, [] => false
  | c :: cs, d :: ds => c = d && hasPre cs ds

/-- JS `String.prototype.startsWith`. -/
def strStartsWith (s pre : String) : Bool := hasPre pre.data s.data

/-- JS `String.prototype.endsWith`. -/
def strEndsWith (s suf : String) : Bool := hasPre suf.data.reverse s.data.reverse

/-- Whether `sep` occurs as a contiguous substring of `l`
(JS `String.prototype.includes`). -/
def containsSub (sep : List Char) : List Char → Bool
  | [] => hasPre sep []
  | c :: cs => hasPre sep (c :: cs) || containsSub sep cs

/-- The part of `l` before the first occurrence of `sep` (the whole of `l` when
`sep` does not occur) — JS `s.split(sep)[0]`. -/
def takeBefore (sep : List Char) : List Char → List Char
  | [] => []
  | c :: cs => if hasPre sep (c :: cs) then [] else c :: takeBefore sep cs

/-- JS `String.prototype.split('\n')` at the character-list level: fields between
newline characters, keeping empty fields. -/
def splitNl : List Char → List (List Char)
  | [] => [[]]
  | c :: cs =>
    if c = '\n' then [] :: splitNl cs
    else
      match splitNl cs with
      | [] => [[c]]
      | l :: ls => (c :: l) :: ls

/-- JS `String.prototype.split('\n')`. -/
def splitNlStr (s : String) : List String := (splitNl s.data).map String.mk

/-- JS `Array.prototype.find`: the first element satisfying `p`, if any. -/
def jsFind {α : Type} (p : α → Bool) : List α → Option α
  | [] => none
  | x :: xs => if p x then some x else jsFind p xs

/-! ## A backtracking regex core

The two regex literals of the source are embedded as abstract syntax trees and
run by a backtracking matcher that mirrors the JavaScript engine's behaviour on
them: alternatives are tried left to right, `*`/`+`/`?` are greedy, and the
overall match is the leftmost one.  Repetition operators in both source regexes
only ever apply to single-character classes, so `star`/`plus` take a character
class directly. -/

/-- Regex ASTs as used by the two literals in the source. -/
inductive RE where
  | lit : List Char → RE
  | cls : (Char → Bool) → RE
  | seq : RE → RE → RE
  | alt : RE → RE → RE
  | star : (Char → Bool) → RE
  | plus : (Char → Bool) → RE
  | opt : RE → RE

/-- Ends of a literal match: consume exactly `l` from the front. -/
def litEnds : List Char → List Char → List (List Char)
  | [], s => [s]
  | _ :: _, [] => []
  | c :: cs, d :: ds => if d = c then litEnds cs ds else []

/-- Ends of a greedy `class*` match, longest first (the backtracking order). -/
def starEnds (p : Char → Bool) : List Char → List (List Char)
  | [] => [[]]
  | c :: cs => if p c then starEnds p cs ++ [c :: cs] else [c :: cs]

/-- Ends of a greedy `class+` match, longest first. -/
def plusEnds (p : Char → Bool) : List Char → List (List Char)
  | [] => []
  | c :: cs => if p c then starEnds p cs else []

/-- All suffixes of `s` at which `r` can stop after matching a prefix of `s`,
in the engine's backtracking order. -/
def reEnds : RE → List Char → List (List Char)
  | .lit l, s => litEnds l s
  | .cls p, s =>
    match s with
    | [] => []
    | c :: cs => if p c then [cs] else []
  | .seq a b, s => (reEnds a s).flatMap (reEnds b)
  | .alt a b, s => reEnds a s ++ reEnds b s
  | .star p, s => starEnds p s
  | .plus p, s => plusEnds p s
  | .opt a, s => reEnds a s ++ [s]

/-! ## `extractVideoId` (source lines 107-111, variant A)

```js
function extractVideoId(url) {
  const regex = /(?:youtube\.com\/(?:[^\/]+\/.+\/|(?:v|e(?:mbed)?)\/|.*[?&]v=)|youtu\.be\/)([^"&?\/\s]{11})/;
  const match = url.match(regex);
  return match ? match[1] : null;
}
```
-/

/-- The `.` regex class: any character except a line terminator. -/
def dotC (c : Char) : Bool :=
  !(c = '\n' || c = '\r' || c = '\u2028' || c = '\u2029')

/-- The `[^\/]` class. -/
def notSlashC (c : Char) : Bool := !(c = '/')

/-- The `[?&]` class. -/
def qaC (c : Char) : Bool := c = '?' || c = '&'

/-- The `[^"&?\/\s]` class capturing a video-id character in the source regex. -/
def idChar (c : Char) : Bool :=
  !(c = '"' || c = '&' || c = '?' || c = '/' || isJsSpace c)

/-- Everything of the video-id regex before the capturing group:
`(?:youtube\.com\/(?:[^\/]+\/.+\/|(?:v|e(?:mbed)?)\/|.*[?&]v=)|youtu\.be\/)`. -/
def videoIdPre : RE :=
  .alt
    (.seq (.lit "youtube.com/".data)
      (.alt
        (.seq (.plus notSlashC) (.seq (.lit "/".data) (.seq (.plus dotC) (.lit "/".data))))
        (.alt
          (.seq (.alt (.lit "v".data) (.seq (.lit "e".data) (.opt (.lit "mbed".data)))) (.lit "/".data))
          (.seq (.star dotC) (.seq (.cls qaC) (.lit "v=".data))))))
    (.lit "youtu.be/".data)

/-- The capturing group `([^"&?\/\s]{11})`: the first 11 characters of the
remaining input, provided there are 11 and all lie in the class. -/
def idCapture (t : List Char) : Option (List Char) :=
  let c := t.take 11
  if c.length = 11 ∧ c.all idChar then some c else none

/-- Try the whole video-id regex anchored at the current position: the first
end of the non-capturing part (in backtracking order) at which the capturing
group also matches yields the capture. -/
def findCapture (s : List Char) : Option (List Char) :=
  ((reEnds videoIdPre s).filterMap idCapture).head?

/-- Leftmost-match search: try each start position left to right. -/
def scanVideoId : List Char → Option (List Char)
  | [] => none
  | c :: cs =>
    match findCapture (c :: cs) with
    | some r => some r
    | none => scanVideoId cs

/-- `extractVideoId` from the source: the first capture of the pattern, or
`none` when the pattern does not match. -/
def extractVideoId (url : String) : Option String :=
  (scanVideoId url.data).map String.mk

/-! ## The handler's URL validation regex (source lines 39 and 308)

```js
const youtubeRegex = /^(https?:\/\/)?(www\.)?(youtube\.com|youtu\.be)\/.+/;
```
-/

/-- The URL-validation regex, anchored at the start by `^`. -/
def youtubeRE : RE :=
  .seq (.opt (.seq (.lit "http".data) (.seq (.opt (.lit "s".data)) (.lit "://".data))))
    (.seq (.opt (.lit "www.".data))
      (.seq (.alt (.lit "youtube.com".data) (.lit "youtu.be".data))
        (.seq (.lit "/".data) (.plus dotC))))

/-- `youtubeRegex.test(url)`: since the pattern is anchored by `^`, the test
succeeds exactly when a match starts at position 0. -/
def youtubeUrlTest (url : String) : Bool :=
  !(reEnds youtubeRE url.data).isEmpty


/-! ## Caption tracks and the track selector (source lines 162-191, variant A)

```js
function findEnglishTrack(captionTracks) {
  let englishTrack = captionTracks.find(track =>
    track.languageCode === 'en' && track.kind !== 'asr');
  if (!englishTrack) {
    englishTrack = captionTracks.find(track =>
      track.languageCode === 'en' && track.kind === 'asr');
  }
  if (!englishTrack) {
    englishTrack = captionTracks.find(track =>
      track.languageCode?.startsWith('en'));
  }
  return englishTrack;
}
```
-/

/-- A caption track as consumed by the selector: `languageCode` and `kind` may
be absent in the platform's JSON, `baseUrl` is the retrieval URL. -/
structure CaptionTrack where
  languageCode : Option String
  kind : Option String
  baseUrl : String
deriving DecidableEq, Repr

/-- The first `find` callback: `track.languageCode === 'en' && track.kind !== 'asr'`. -/
def manualEn (t : CaptionTrack) : Bool :=
  t.languageCode == some "en" && !(t.kind == some "asr")

/-- The second `find` callback: `track.languageCode === 'en' && track.kind === 'asr'`. -/
def asrEn (t : CaptionTrack) : Bool :=
  t.languageCode == some "en" && t.kind == some "asr"

/-- The third `find` callback: `track.languageCode?.startsWith('en')`
(`undefined` is falsy when `languageCode` is absent). -/
def enPrefixTrack (t : CaptionTrack) : Bool :=
  match t.languageCode with
  | none => false
  | some lc => strStartsWith lc "en"

/-- `findEnglishTrack` from the source. -/
def findEnglishTrack (ts : List CaptionTrack) : Option CaptionTrack :=
  match jsFind manualEn ts with
  | some t => some t
  | none =>
    match jsFind asrEn ts with
    | some t => some t
    | none => jsFind enPrefixTrack ts

/-! ## The event-JSON normalizer (source lines 231-267, variant A)

```js
function parseTranscriptData(transcriptData) {
  const events = transcriptData?.events || [];
  const transcript = [];
  for (const event of events) {
    if (event.segs) {
      const startTime = event.tStartMs || 0;
      const text = event.segs.map(seg => seg.utf8 || '').join('').trim();
      if (text) {
        transcript.push({ timestamp: formatTimestamp(startTime), text: text });
      }
    }
  }
  return transcript;
}

function formatTimestamp(startTimeMs) {
  const totalSeconds = Math.floor(startTimeMs / 1000);
  const hours = Math.floor(totalSeconds / 3600);
  const minutes = Math.floor((totalSeconds % 3600) / 60);
  const seconds = totalSeconds % 60;
  if (hours > 0) {
    return `${hours}:${minutes.toString().padStart(2, '0')}:${seconds.toString().padStart(2, '0')}`;
  } else {
    return `${minutes}:${seconds.toString().padStart(2, '0')}`;
  }
}
```
-/

/-- One entry of the normalized transcript. -/
structure TranscriptEntry where
  timestamp : String
  text : String
deriving DecidableEq, Repr

/-- One segment of an event: the text may be absent. -/
structure Seg where
  utf8 : Option String
deriving DecidableEq, Repr

/-- One event of the event-JSON document: both fields may be absent. -/
structure Event where
  tStartMs : Option Nat
  segs : Option (List Seg)
deriving DecidableEq, Repr

/-- JS `String.prototype.padStart(2, '0')`. -/
def pad2 (s : String) : String :=
  if s.length ≥ 2 then s else String.mk (List.replicate (2 - s.length) '0' ++ s.data)

/-- `formatTimestamp` from the source: milliseconds to `H:MM:SS` (hours
positive) or `M:SS`. -/
def formatTimestamp (startTimeMs : Nat) : String :=
  if startTimeMs / 1000 / 3600 > 0 then
    toString (startTimeMs / 1000 / 3600) ++ ":" ++
      pad2 (toString (startTimeMs / 1000 % 3600 / 60)) ++ ":" ++
      pad2 (toString (startTimeMs / 1000 % 60))
  else
    toString (startTimeMs / 1000 % 3600 / 60) ++ ":" ++
      pad2 (toString (startTimeMs / 1000 % 60))

/-- The concatenated segment texts of an event (`segs.map(seg => seg.utf8 || '').join('')`),
trimmed. -/
def eventText (segs : List Seg) : String :=
  jsTrimStr (String.join (segs.map (fun s => s.utf8.getD "")))

/-- `parseTranscriptData` from the source.  The decoded JSON document is
modelled by its (possibly absent) `events` list. -/
def parseTranscriptData (doc : Option (List Event)) : List TranscriptEntry :=
  (doc.getD []).filterMap (fun e =>
    match e.segs with
    | none => none
    | some segs =>
      let startTime := e.tStartMs.getD 0
      let text := eventText segs
      if text = "" then none
      else some ⟨formatTimestamp startTime, text⟩)

/-! ## The cue-text (WebVTT) normalizer (source lines 409-450, variant B)

```js
function parseVTT(vttContent) {
  const lines = vttContent.split('\n');
  const transcript = [];
  let currentText = '';
  let currentTimestamp = '';
  for (let i = 0; i < lines.length; i++) {
    const line = lines[i].trim();
    if (line === 'WEBVTT' || line === '' || line.startsWith('NOTE')) continue;
    if (line.includes('-->')) {
      if (currentText && currentTimestamp) {
        transcript.push({ timestamp: currentTimestamp, text: currentText.trim() });
      }
      currentTimestamp = line.split('-->')[0].trim();
      currentText = '';
    } else {
      currentText += line + ' ';
    }
  }
  if (currentText && currentTimestamp) {
    transcript.push({ timestamp: currentTimestamp, text: currentText.trim() });
  }
  return transcript;
}
```
-/

/-- The cue-time separator `-->`. -/
def arrowSep : List Char := ['-', '-', '>']

/-- The loop body of `parseVTT`: state is `(transcript, currentText, currentTimestamp)`. -/
def vttStep (st : List TranscriptEntry × String × String) (raw : String) :
    List TranscriptEntry × String × String :=
  let line := jsTrimStr raw
  if line = "WEBVTT" ∨ line = "" ∨ strStartsWith line "NOTE" then st
  else if containsSub arrowSep line.data then
    (if st.2.1 ≠ "" ∧ st.2.2 ≠ "" then st.1 ++ [⟨st.2.2, jsTrimStr st.2.1⟩] else st.1,
     "",
     jsTrimStr (String.mk (takeBefore arrowSep line.data)))
  else (st.1, st.2.1 ++ line ++ " ", st.2.2)

/-- `parseVTT` from the source: fold the loop body over the lines, then flush
the final pending pair. -/
def parseVTT (vttContent : String) : List TranscriptEntry :=
  let st := (splitNlStr vttContent).foldl vttStep ([], "", "")
  if st.2.1 ≠ "" ∧ st.2.2 ≠ "" then st.1 ++ [⟨st.2.2, jsTrimStr st.2.1⟩] else st.1

/-! ## The HTTP handlers (source lines 4-71 variant A, 273-347 variant B)

`JSON.parse` of the request body is a JS builtin; it is modelled as a
parameter mapping the raw body to either a thrown parse error or a decoded
object carrying an optional `url` string.  `extractTranscript` of variant A
performs network I/O and is modelled as a parameter mapping the URL to its
outcome.  Variant B's subprocess run and scratch-directory filesystem are
modelled explicitly below. -/

/-- Outcome of `JSON.parse(event.body)` followed by destructuring `{ url }`:
either a throw (invalid JSON, or a non-destructurable value such as `null`),
or a decoded object whose `url` field is absent (`none`) or a string. -/
inductive ParsedBody where
  | parseError (msg : String)
  | parsed (url : Option String)
deriving DecidableEq, Repr

/-- JS truthiness of the destructured `url` value: absent or empty string is falsy. -/
def urlFalsy : Option String → Bool
  | none => true
  | some s => s == ""

/-- Outcome of variant A's `extractTranscript(url)` promise. -/
inductive ExtractOutcome where
  | ok (transcript : List TranscriptEntry)
  | fail (msg : String)
deriving DecidableEq, Repr

/-- The JSON response body shapes produced by the handlers. -/
inductive RespBody where
  | empty
  | errorMsg (error : String)
  | errorDetails (error details : String)
  | success (transcript : List TranscriptEntry) (url : String)
deriving DecidableEq, Repr

/-- An HTTP response: status code, whether the CORS headers object was
attached, and the body. -/
structure HttpResponse where
  statusCode : Nat
  corsHeaders : Bool
  body : RespBody
deriving DecidableEq, Repr

/-- An inbound request event: method and raw body (absent bodies modelled as `none`). -/
structure HttpEvent where
  httpMethod : String
  body : Option String
deriving DecidableEq, Repr

/-- Variant A's `exports.handler`.  Mirrors the source order: the `!== 'POST'`
check (405, without the `headers` object, which is defined only afterwards)
precedes the `=== 'OPTIONS'` check; then the `try` block parses the body,
validates the URL and extracts, and the `catch` turns any throw into a 500. -/
def handlerA (parse : Option String → ParsedBody) (extract : String → ExtractOutcome)
    (ev : HttpEvent) : HttpResponse :=
  if ev.httpMethod ≠ "POST" then
    ⟨405, false, .errorMsg "Method not allowed"⟩
  else if ev.httpMethod = "OPTIONS" then
    ⟨200, true, .empty⟩
  else
    match parse ev.body with
    | .parseError m => ⟨500, true, .errorDetails "Failed to extract transcript" m⟩
    | .parsed url =>
      if urlFalsy url then ⟨400, true, .errorMsg "YouTube URL is required"⟩
      else
        let u := url.getD ""
        if !youtubeUrlTest u then ⟨400, true, .errorMsg "Invalid YouTube URL"⟩
        else
          match extract u with
          | .ok t => ⟨200, true, .success t u⟩
          | .fail m => ⟨500, true, .errorDetails "Failed to extract transcript" m⟩

/-! ## Variant B's subprocess adapter and handler -/

/-- A file in the scratch directory after the subprocess run: name and content. -/
structure ScratchFile where
  name : String
  content : String
deriving DecidableEq, Repr

/-- Outcome of spawning the downloader: either the `error` event fires, or the
process exits with a code, captured stderr, and the files now present in the
scratch directory (in directory-listing order). -/
inductive SpawnOutcome where
  | spawnError (msg : String)
  | exited (code : Nat) (stderr : String) (files : List ScratchFile)
deriving DecidableEq, Repr

/-- The `file.endsWith('.vtt')` callback. -/
def isVttFile (f : ScratchFile) : Bool := strEndsWith f.name ".vtt"

/-- Variant B's `extractTranscript` (source lines 349-407): reject on a spawn
error or a non-zero exit; otherwise pick the first `.vtt` file in
directory-listing order, rejecting when none exists, and parse it. -/
def extractTranscriptB (run : SpawnOutcome) : Except String (List TranscriptEntry) :=
  match run with
  | .spawnError m => .error ("Failed to spawn yt-dlp: " ++ m)
  | .exited code stderr files =>
    if code ≠ 0 then .error ("yt-dlp failed with code " ++ toString code ++ ": " ++ stderr)
    else
      match jsFind isVttFile files with
      | none => .error "No transcript file found. Video may not have subtitles."
      | some f => .ok (parseVTT f.content)

/-- Variant B's `exports.handler`.  The filesystem is modelled as the list of
existing scratch directories (by identifier); `fs.mkdirSync` appends the fresh
`tempDir`, `fs.rmSync` removes it.  The source calls `rmSync` only after a
successful `await extractTranscript(...)`; a rejection jumps to the `catch`
block, which returns 500 without touching the directory. -/
def handlerB (parse : Option String → ParsedBody) (run : SpawnOutcome) (tempDir : Nat)
    (ev : HttpEvent) (fs : List Nat) : HttpResponse × List Nat :=
  if ev.httpMethod ≠ "POST" then
    (⟨405, false, .errorMsg "Method not allowed"⟩, fs)
  else if ev.httpMethod = "OPTIONS" then
    (⟨200, true, .empty⟩, fs)
  else
    match parse ev.body with
    | .parseError m => (⟨500, true, .errorDetails "Failed to extract transcript" m⟩, fs)
    | .parsed url =>
      if urlFalsy url then (⟨400, true, .errorMsg "YouTube URL is required"⟩, fs)
      else
        let u := url.getD ""
        if !youtubeUrlTest u then (⟨400, true, .errorMsg "Invalid YouTube URL"⟩, fs)
        else
          let fs1 := fs ++ [tempDir]
          match extractTranscriptB run with
          | .ok t => (⟨200, true, .success t u⟩, fs1.erase tempDir)
          | .error m => (⟨500, true, .errorDetails "Failed to extract transcript" m⟩, fs1)

/-! ## Shared helper lemmas -/

/-- `jsFind` returns `none` exactly when no element satisfies the callback. -/
theorem jsFind_eq_none {α : Type} {p : α → Bool} {l : List α} :
    jsFind p l = none ↔ ∀ x ∈ l, p x = false := by
  induction l with
  | nil => simp [jsFind]
  | cons a as ih =>
    by_cases h : p a = true
    · simp [jsFind, h]
    · simp only [Bool.not_eq_true] at h
      simp [jsFind, h, ih]

/-- `jsFind` returns the first element satisfying the callback: the list splits
into a failing initial segment, the hit, and a tail. -/
theorem jsFind_eq_some {α : Type} {p : α → Bool} {l : List α} {x : α}
    (h : jsFind p l = some x) :
    p x = true ∧ ∃ l1 l2, l = l1 ++ x :: l2 ∧ ∀ y ∈ l1, p y = false := by
  induction l with
  | nil => simp [jsFind] at h
  | cons a as ih =>
    by_cases hp : p a = true
    · simp only [jsFind, hp, if_pos, Option.some.injEq] at h
      subst h
      exact ⟨hp, [], as, rfl, by simp⟩
    · simp only [Bool.not_eq_true] at hp
      simp only [jsFind, hp, Bool.false_eq_true, if_false] at h
      obtain ⟨hx, l1, l2, heq, hall⟩ := ih h
      refine ⟨hx, a :: l1, l2, by simp [heq], ?_⟩
      intro y hy
      rcases List.mem_cons.mp hy with rfl | hy
      · exact hp
      · exact hall y hy

/-- A member satisfying the callback forces `jsFind` to return a hit. -/
theorem jsFind_isSome {α : Type} {p : α → Bool} {l : List α} {x : α}
    (hx : x ∈ l) (hp : p x = true) : ∃ y, jsFind p l = some y := by
  cases h : jsFind p l with
  | some y => exact ⟨y, rfl⟩
  | none => exact absurd (jsFind_eq_none.mp h x hx) (by simp [hp])

/-! ## C1 — the OPTIONS preflight (code bug)

The source checks `event.httpMethod !== 'POST'` first and returns 405 there,
so the subsequent `=== 'OPTIONS'` branch returning 200 with the CORS headers
(source lines 19-25 and 288-294) is unreachable: an OPTIONS request receives
405, and without the CORS headers, since the `headers` object is defined only
after the 405 return. -/

/-- C1: contrary to the claim, every OPTIONS request is answered by both
handler variants with status 405 and no CORS headers (the OPTIONS branch of
the source is dead code behind the non-POST check). -/
theorem options_preflight_gets_405 (parse : Option String → ParsedBody)
    (extract : String → ExtractOutcome) (run : SpawnOutcome) (tempDir : Nat)
    (body : Option String) (fs : List Nat) :
    handlerA parse extract ⟨"OPTIONS", body⟩ =
      ⟨405, false, .errorMsg "Method not allowed"⟩ ∧
    handlerB parse run tempDir ⟨"OPTIONS", body⟩ fs =
      (⟨405, false, .errorMsg "Method not allowed"⟩, fs) := by
  exact ⟨rfl, rfl⟩

/-! ## C2 — classification of invalid input -/

/-- C2 counterexample: a POST request whose body is missing (so `JSON.parse`
throws) is answered with 500, not 400 as the claim states, by both variants. -/
theorem unparseable_body_gets_500_not_400 :
    (handlerA (fun _ => .parseError "Unexpected end of JSON input")
      (fun _ => .ok []) ⟨"POST", none⟩).statusCode = 500 ∧
    ¬ (handlerA (fun _ => .parseError "Unexpected end of JSON input")
      (fun _ => .ok []) ⟨"POST", none⟩).statusCode = 400 ∧
    (handlerB (fun _ => .parseError "Unexpected end of JSON input")
      (.exited 0 "" []) 0 ⟨"POST", none⟩ []).1.statusCode = 500 := by
  exact ⟨rfl, by decide, rfl⟩

/-- C2 (amended): for POST requests, a body that parses but has a missing,
empty or pattern-failing `url` yields 400 with an `error` body; a missing or
unparseable body throws inside the `try` and yields 500 via the catch-all;
and a 500 from variant A arises only from a body-parse throw or an extraction
failure. -/
theorem handler_invalid_input_classification
    (parse : Option String → ParsedBody) (extract : String → ExtractOutcome)
    (run : SpawnOutcome) (tempDir : Nat) (fs : List Nat)
    (b : Option String) (m : String) (u : String) :
    (parse b = .parseError m →
      handlerA parse extract ⟨"POST", b⟩ =
        ⟨500, true, .errorDetails "Failed to extract transcript" m⟩ ∧
      (handlerB parse run tempDir ⟨"POST", b⟩ fs).1 =
        ⟨500, true, .errorDetails "Failed to extract transcript" m⟩) ∧
    (parse b = .parsed none →
      handlerA parse extract ⟨"POST", b⟩ = ⟨400, true, .errorMsg "YouTube URL is required"⟩ ∧
      (handlerB parse run tempDir ⟨"POST", b⟩ fs).1 =
        ⟨400, true, .errorMsg "YouTube URL is required"⟩) ∧
    (parse b = .parsed (some "") →
      handlerA parse extract ⟨"POST", b⟩ = ⟨400, true, .errorMsg "YouTube URL is required"⟩ ∧
      (handlerB parse run tempDir ⟨"POST", b⟩ fs).1 =
        ⟨400, true, .errorMsg "YouTube URL is required"⟩) ∧
    (parse b = .parsed (some u) → u ≠ "" → youtubeUrlTest u = false →
      handlerA parse extract ⟨"POST", b⟩ = ⟨400, true, .errorMsg "Invalid YouTube URL"⟩ ∧
      (handlerB parse run tempDir ⟨"POST", b⟩ fs).1 =
        ⟨400, true, .errorMsg "Invalid YouTube URL"⟩) ∧
    ((handlerA parse extract ⟨"POST", b⟩).statusCode = 500 →
      (∃ m', parse b = .parseError m') ∨
      (∃ u' m', parse b = .parsed (some u') ∧ extract u' = .fail m')) := by
  refine ⟨?_, ?_, ?_, ?_, ?_⟩
  · intro hp
    constructor <;> simp [handlerA, handlerB, hp]
  · intro hp
    constructor <;> simp [handlerA, handlerB, hp, urlFalsy]
  · intro hp
    constructor <;> simp [handlerA, handlerB, hp, urlFalsy]
  · intro hp hu ht
    have hf : urlFalsy (some u) = false := by simp [urlFalsy, hu]
    constructor <;> simp [handlerA, handlerB, hp, hf, ht]
  · intro h500
    cases hp : parse b with
    | parseError m' => exact Or.inl ⟨m', rfl⟩
    | parsed url =>
      cases hfal : urlFalsy url with
      | true => simp [handlerA, hp, hfal] at h500
      | false =>
        cases url with
        | none => simp [urlFalsy] at hfal
        | some u' =>
          cases ht : youtubeUrlTest u' with
          | false => simp [handlerA, hp, hfal, ht] at h500
          | true =>
            cases he : extract u' with
            | ok t => simp [handlerA, hp, hfal, ht, he] at h500
            | fail m' => exact Or.inr ⟨u', m', rfl, he⟩

/-- C2 witness: the amended theorem applied at a concrete parsed body with an
empty `url` field. -/
theorem handler_invalid_input_classification_witness :
    handlerA (fun _ => .parsed (some "")) (fun _ => .ok []) ⟨"POST", some "x"⟩ =
      ⟨400, true, .errorMsg "YouTube URL is required"⟩ :=
  ((handler_invalid_input_classification (fun _ => .parsed (some "")) (fun _ => .ok [])
    (.exited 0 "" []) 0 [] (some "x") "" "").2.2.1 rfl).1

/-! ## C3 — scratch-directory cleanup in variant B

The source creates the scratch directory (line 319), awaits
`extractTranscript`, and calls `fs.rmSync` (line 324) only on the success
path; a rejected promise jumps straight to the `catch` block (line 336),
which returns 500 without removing the directory. -/

/-- C3 counterexample: a failing subprocess run (exit code 1) leaves the
scratch directory behind while the handler returns 500, refuting
cleanup-on-every-exit-path. -/
theorem scratch_dir_left_on_failure :
    (handlerB (fun _ => .parsed (some "https://youtu.be/dQw4w9WgXcQ"))
      (.exited 1 "network error" []) 7 ⟨"POST", some "ignored"⟩ []).2 = [7] ∧
    (handlerB (fun _ => .parsed (some "https://youtu.be/dQw4w9WgXcQ"))
      (.exited 1 "network error" []) 7 ⟨"POST", some "ignored"⟩ []).1.statusCode = 500 := by
  exact ⟨rfl, rfl⟩

/-- C3 (amended): once the scratch directory has been created, it is removed
before the handler returns only on the success path; on every failure of
`extractTranscript` (spawn error, non-zero exit, no subtitle file, or any
later throw) the directory is left in place. -/
theorem handlerB_cleanup_paths
    (parse : Option String → ParsedBody) (run : SpawnOutcome) (tempDir : Nat)
    (fs : List Nat) (b : Option String) (u : String)
    (hp : parse b = .parsed (some u)) (hu : u ≠ "") (ht : youtubeUrlTest u = true)
    (hfresh : tempDir ∉ fs) :
    (∀ t, extractTranscriptB run = .ok t →
      (handlerB parse run tempDir ⟨"POST", b⟩ fs).2 = fs) ∧
    (∀ m, extractTranscriptB run = .error m →
      (handlerB parse run tempDir ⟨"POST", b⟩ fs).2 = fs ++ [tempDir]) := by
  have hf : urlFalsy (some u) = false := by simp [urlFalsy, hu]
  constructor
  · intro t he
    simp [handlerB, hp, hf, ht, he, List.erase_append_right _ hfresh]
  · intro m he
    simp [handlerB, hp, hf, ht, he]

/-- C3 witness: on a successful run over a fresh directory the handler hands
back the filesystem unchanged. -/
theorem handlerB_cleanup_paths_witness :
    (handlerB (fun _ => .parsed (some "https://youtu.be/x"))
      (.exited 0 "" [⟨"sub.en.vtt", "WEBVTT"⟩]) 7 ⟨"POST", some "ignored"⟩ []).2 = [] :=
  (handlerB_cleanup_paths (fun _ => .parsed (some "https://youtu.be/x"))
    (.exited 0 "" [⟨"sub.en.vtt", "WEBVTT"⟩]) 7 [] (some "ignored") "https://youtu.be/x"
    rfl (by decide) (by decide) (by simp)).1 [] rfl

/-! ## C10 — selection of the subtitle file in variant B -/

/-- C10: after a zero-exit run, the file parsed is the first `.vtt` file in
directory-listing order, and when no file ends in `.vtt` the request fails
with the distinct no-transcript-file error without parsing anything. -/
theorem vtt_file_selection (stderr : String) (files : List ScratchFile) :
    ((∀ f ∈ files, isVttFile f = false) →
      extractTranscriptB (.exited 0 stderr files) =
        .error "No transcript file found. Video may not have subtitles.") ∧
    ((∃ f ∈ files, isVttFile f = true) →
      ∃ l1 g l2, files = l1 ++ g :: l2 ∧ isVttFile g = true ∧
        (∀ f ∈ l1, isVttFile f = false) ∧
        extractTranscriptB (.exited 0 stderr files) = .ok (parseVTT g.content)) := by
  constructor
  · intro hall
    have hnone : jsFind isVttFile files = none := jsFind_eq_none.mpr hall
    simp [extractTranscriptB, hnone]
  · rintro ⟨f, hf, hvtt⟩
    obtain ⟨g, hg⟩ := jsFind_isSome hf hvtt
    obtain ⟨hgv, l1, l2, heq, hall⟩ := jsFind_eq_some hg
    exact ⟨l1, g, l2, heq, hgv, hall, by simp [extractTranscriptB, hg]⟩

/-- C10 witness: a run that produced only non-`.vtt` files fails with the
no-transcript-file error. -/
theorem vtt_file_selection_witness :
    extractTranscriptB (.exited 0 "" [⟨"video.info.json", "x"⟩]) =
      .error "No transcript file found. Video may not have subtitles." :=
  (vtt_file_selection "" [⟨"video.info.json", "x"⟩]).1 (by decide)

/-! ## C6 — the track selector's priority order -/

/-- An auto-generated English track never satisfies the manual-English callback. -/
theorem manualEn_of_asrEn {t : CaptionTrack} (h : asrEn t = true) : manualEn t = false := by
  unfold asrEn at h
  unfold manualEn
  rw [Bool.and_eq_true] at h
  simp [h.1, h.2]

/-- C6: the selector scans in strict priority order with first match winning —
first manual English, then auto-generated English, then any `en`-prefixed
language code — returning `none` only when no category matches; in particular
with one asr-English and one manual-English track, in either order, the manual
track is returned. -/
theorem findEnglishTrack_priority (ts : List CaptionTrack) (a b : CaptionTrack) :
    ((∃ t ∈ ts, manualEn t = true) →
      ∃ l1 t l2, ts = l1 ++ t :: l2 ∧ manualEn t = true ∧
        (∀ u ∈ l1, manualEn u = false) ∧ findEnglishTrack ts = some t) ∧
    ((∀ t ∈ ts, manualEn t = false) → (∃ t ∈ ts, asrEn t = true) →
      ∃ l1 t l2, ts = l1 ++ t :: l2 ∧ asrEn t = true ∧
        (∀ u ∈ l1, asrEn u = false) ∧ findEnglishTrack ts = some t) ∧
    ((∀ t ∈ ts, manualEn t = false ∧ asrEn t = false) → (∃ t ∈ ts, enPrefixTrack t = true) →
      ∃ l1 t l2, ts = l1 ++ t :: l2 ∧ enPrefixTrack t = true ∧
        (∀ u ∈ l1, enPrefixTrack u = false) ∧ findEnglishTrack ts = some t) ∧
    ((∀ t ∈ ts, manualEn t = false ∧ asrEn t = false ∧ enPrefixTrack t = false) →
      findEnglishTrack ts = none) ∧
    (asrEn a = true → manualEn b = true →
      findEnglishTrack [a, b] = some b ∧ findEnglishTrack [b, a] = some b) := by
  refine ⟨?_, ?_, ?_, ?_, ?_⟩
  · rintro ⟨t, ht, hm⟩
    obtain ⟨g, hg⟩ := jsFind_isSome ht hm
    obtain ⟨hgv, l1, l2, heq, hall⟩ := jsFind_eq_some hg
    exact ⟨l1, g, l2, heq, hgv, hall, by simp [findEnglishTrack, hg]⟩
  · rintro hman ⟨t, ht, ha⟩
    have hnone : jsFind manualEn ts = none := jsFind_eq_none.mpr hman
    obtain ⟨g, hg⟩ := jsFind_isSome ht ha
    obtain ⟨hgv, l1, l2, heq, hall⟩ := jsFind_eq_some hg
    exact ⟨l1, g, l2, heq, hgv, hall, by simp [findEnglishTrack, hnone, hg]⟩
  · rintro hboth ⟨t, ht, he⟩
    have h1 : jsFind manualEn ts = none := jsFind_eq_none.mpr (fun x hx => (hboth x hx).1)
    have h2 : jsFind asrEn ts = none := jsFind_eq_none.mpr (fun x hx => (hboth x hx).2)
    obtain ⟨g, hg⟩ := jsFind_isSome ht he
    obtain ⟨hgv, l1, l2, heq, hall⟩ := jsFind_eq_some hg
    exact ⟨l1, g, l2, heq, hgv, hall, by simp [findEnglishTrack, h1, h2, hg]⟩
  · intro hall
    have h1 : jsFind manualEn ts = none := jsFind_eq_none.mpr (fun x hx => (hall x hx).1)
    have h2 : jsFind asrEn ts = none := jsFind_eq_none.mpr (fun x hx => (hall x hx).2.1)
    have h3 : jsFind enPrefixTrack ts = none := jsFind_eq_none.mpr (fun x hx => (hall x hx).2.2)
    simp [findEnglishTrack, h1, h2, h3]
  · intro ha hb
    have hma : manualEn a = false := manualEn_of_asrEn ha
    constructor
    · simp [findEnglishTrack, jsFind, hma, hb]
    · simp [findEnglishTrack, jsFind, hb]

/-- C6 witness: the concrete pair of an asr-English track and a manual English
track (no `kind` field), in the asr-first order, selects the manual track. -/
theorem findEnglishTrack_priority_witness :
    findEnglishTrack [⟨some "en", some "asr", "u1"⟩, ⟨some "en", none, "u2"⟩] =
      some ⟨some "en", none, "u2"⟩ ∧
    findEnglishTrack [⟨some "en", none, "u2"⟩, ⟨some "en", some "asr", "u1"⟩] =
      some ⟨some "en", none, "u2"⟩ :=
  (findEnglishTrack_priority [] ⟨some "en", some "asr", "u1"⟩ ⟨some "en", none, "u2"⟩).2.2.2.2
    (by decide) (by decide)

/-! ## C7 — the event-JSON normalizer against the spec's description -/

/-- Modelled from the spec (section 4.4, timestamp formatting): floor the
milliseconds to whole seconds; at or above 3600 seconds format `H:MM:SS`
(hours unpadded, minutes and seconds zero-padded to two digits), otherwise
`M:SS` (minutes unpadded, seconds zero-padded). -/
def specFormatTimestamp (ms : Nat) : String :=
  if 3600 ≤ ms / 1000 then
    toString (ms / 1000 / 3600) ++ ":" ++ pad2 (toString (ms / 1000 % 3600 / 60)) ++ ":" ++
      pad2 (toString (ms / 1000 % 60))
  else
    toString (ms / 1000 / 60) ++ ":" ++ pad2 (toString (ms / 1000 % 60))

/-- Modelled from the spec (section 4.4): for each event that has a `segs`
field, concatenate the segment texts (missing text as empty), trim, and emit
an entry when non-empty; events without `segs` are skipped entirely. -/
def specParseEvents : List Event → List TranscriptEntry
  | [] => []
  | e :: es =>
    match e.segs with
    | none => specParseEvents es
    | some segs =>
      if eventText segs = "" then specParseEvents es
      else ⟨specFormatTimestamp (e.tStartMs.getD 0), eventText segs⟩ :: specParseEvents es

/-- The source's hours-positive test agrees with the spec's 3600-seconds
threshold, and below it the source's `(t % 3600) / 60` equals the spec's
`t / 60`. -/
theorem formatTimestamp_eq_spec (ms : Nat) : formatTimestamp ms = specFormatTimestamp ms := by
  unfold formatTimestamp specFormatTimestamp
  by_cases h : 3600 ≤ ms / 1000
  · rw [if_pos (by omega), if_pos h]
  · rw [if_neg (by omega), if_neg h]
    have : ms / 1000 % 3600 = ms / 1000 := by omega
    rw [this]

/-- C7: the event-JSON normalizer emits exactly the entries the spec
describes — one per `segs`-bearing event with non-empty trimmed concatenated
text, timestamped by the spec's formatting rule — and the formatting examples
65000 ms ↦ `1:05` and 3661 s ↦ `1:01:01` hold. -/
theorem eventJson_normalizer_spec :
    (∀ doc : Option (List Event), parseTranscriptData doc = specParseEvents (doc.getD [])) ∧
    (∀ ms : Nat, formatTimestamp ms = specFormatTimestamp ms) ∧
    formatTimestamp 65000 = "1:05" ∧
    formatTimestamp (3661 * 1000) = "1:01:01" := by
    
  refine ⟨?_, formatTimestamp_eq_spec, by decide, by decide⟩
  intro doc
  unfold parseTranscriptData
  induction doc.getD [] with
  | nil => rfl
  | cons e es ih =>
    rw [List.filterMap_cons]
    cases hs : e.segs with
    | none => simpa [specParseEvents, hs] using ih
    | some segs =>
      by_cases ht : eventText segs = ""
      · simpa [specParseEvents, hs, ht] using ih
      · simp [specParseEvents, hs, ht, ih]
        exact formatTimestamp_eq_spec _

/-! ## C8 — the cue-text parser's line discipline -/

/-- C8: the cue-text parser skips header, blank and comment lines; a line
containing the cue-time separator flushes the pending pair exactly when both
are non-empty and records the trimmed text before the separator as the new
timestamp; any other non-empty line accumulates with a single separating
space; and the two end-to-end examples hold, the final pending pair being
flushed after the scan. -/
theorem cueText_normalizer_behavior (tr : List TranscriptEntry) (ct ts raw : String) :
    parseVTT "WEBVTT\n\n00:00:01.000 --> 00:00:02.000\nhello\nworld\n" =
      [⟨"00:00:01.000", "hello world"⟩] ∧
    parseVTT "WEBVTT\n\n00:00:01.000 --> 00:00:02.000\n00:00:03.000 --> 00:00:04.000\nbye\n" =
      [⟨"00:00:03.000", "bye"⟩] ∧
    (jsTrimStr raw = "WEBVTT" ∨ jsTrimStr raw = "" ∨ strStartsWith (jsTrimStr raw) "NOTE" = true →
      vttStep (tr, ct, ts) raw = (tr, ct, ts)) ∧
    (¬(jsTrimStr raw = "WEBVTT" ∨ jsTrimStr raw = "" ∨ strStartsWith (jsTrimStr raw) "NOTE" = true) →
      containsSub arrowSep (jsTrimStr raw).data = true → ct = "" ∨ ts = "" →
      vttStep (tr, ct, ts) raw =
        (tr, "", jsTrimStr (String.mk (takeBefore arrowSep (jsTrimStr raw).data)))) ∧
    (¬(jsTrimStr raw = "WEBVTT" ∨ jsTrimStr raw = "" ∨ strStartsWith (jsTrimStr raw) "NOTE" = true) →
      containsSub arrowSep (jsTrimStr raw).data = true → ct ≠ "" → ts ≠ "" →
      vttStep (tr, ct, ts) raw =
        (tr ++ [⟨ts, jsTrimStr ct⟩], "",
          jsTrimStr (String.mk (takeBefore arrowSep (jsTrimStr raw).data)))) ∧
    (¬(jsTrimStr raw = "WEBVTT" ∨ jsTrimStr raw = "" ∨ strStartsWith (jsTrimStr raw) "NOTE" = true) →
      containsSub arrowSep (jsTrimStr raw).data = false →
      vttStep (tr, ct, ts) raw = (tr, ct ++ jsTrimStr raw ++ " ", ts)) := by
  refine ⟨by decide, by decide, ?_, ?_, ?_, ?_⟩
  · intro hskip
    simp only [vttStep, if_pos hskip]
  · intro hskip harrow hempty
    have hnot : ¬(ct ≠ "" ∧ ts ≠ "") := by
      rcases hempty with h | h <;> simp [h]
    simp [vttStep, hskip, harrow, hnot]
  · intro hskip harrow hct hts
    simp [vttStep, hskip, harrow, hct, hts]
  · intro hskip harrow
    simp [vttStep, hskip, harrow]

/-- C8 witness: a comment line leaves the state untouched; a timing line over
an empty pending text emits nothing and records the new timestamp. -/
theorem cueText_normalizer_behavior_witness :
    vttStep ([], "", "") "NOTE styling" = ([], "", "") ∧
    vttStep ([], "", "") "00:00:01.000 --> 00:00:02.000" = ([], "", "00:00:01.000") := by
  constructor
  · exact (cueText_normalizer_behavior [] "" "" "NOTE styling").2.2.1 (by decide)
  · rw [(cueText_normalizer_behavior [] "" "" "00:00:01.000 --> 00:00:02.000").2.2.2.1
      (by decide) (by decide) (Or.inl rfl)]
    decide

/-! ## C9 — non-empty text of every normalized entry -/

/-- The first element surviving `dropWhile` fails the predicate. -/
theorem dropWhile_head_false {p : Char → Bool} :
    ∀ {l : List Char} {c : Char} {t : List Char}, l.dropWhile p = c :: t → p c = false := by
  intro l
  induction l with
  | nil => intro c t h; simp [List.dropWhile] at h
  | cons a as ih =>
    intro c t h
    rw [List.dropWhile_cons] at h
    by_cases hp : p a = true
    · rw [if_pos hp] at h
      exact ih h
    · rw [if_neg hp] at h
      cases h
      exact Bool.not_eq_true _ |>.mp hp

/-- Characters of a fully-trimmed-away list are all whitespace. -/
theorem jsTrimL_eq_nil_all {l : List Char} (h : jsTrimL l = []) :
    ∀ c ∈ l, isJsSpace c = true := by
  unfold jsTrimL at h
  rw [List.reverse_eq_nil_iff] at h
  have hx : ∀ c ∈ l.dropWhile isJsSpace, isJsSpace c = true := by
    intro c hc
    have := List.dropWhile_eq_nil_iff.mp h c (by simpa using hc)
    exact this
  intro c hc
  have hsplit := List.takeWhile_append_dropWhile isJsSpace l
  rw [← hsplit] at hc
  rcases List.mem_append.mp hc with h1 | h2
  · exact List.mem_takeWhile_imp h1
  · exact hx c h2

/-- A non-empty trim result contains a non-whitespace character. -/
theorem jsTrimL_ne_nil_exists {l : List Char} (h : jsTrimL l ≠ []) :
    ∃ c ∈ jsTrimL l, isJsSpace c = false := by
  unfold jsTrimL at h ⊢
  rw [Ne, List.reverse_eq_nil_iff] at h
  cases hY : (l.dropWhile isJsSpace).reverse.dropWhile isJsSpace with
  | nil => exact absurd hY h
  | cons c t =>
    refine ⟨c, ?_, dropWhile_head_false hY⟩
    simp

/-- Appending a line containing a non-whitespace character keeps the trimmed
accumulator non-empty. -/
theorem jsTrimStr_append_ne {ct line : String}
    (hl : ∃ c ∈ line.data, isJsSpace c = false) :
    jsTrimStr (ct ++ line ++ " ") ≠ "" := by
  intro hcon
  have hdata : jsTrimL (ct ++ line ++ " ").data = [] := congrArg String.data hcon
  obtain ⟨c, hc, hcs⟩ := hl
  have hmem : c ∈ (ct ++ line ++ " ").data := by
    rw [String.data_append, String.data_append]
    exact List.mem_append.mpr (Or.inl (List.mem_append.mpr (Or.inr hc)))
  have := jsTrimL_eq_nil_all hdata c hmem
  rw [this] at hcs
  exact Bool.true_eq_false.mp hcs

/-- The invariant carried through the cue-text scan: all flushed entries have
non-empty text, and the pending accumulator is empty or trims non-empty. -/
def VttInv (st : List TranscriptEntry × String × String) : Prop :=
  (∀ e ∈ st.1, e.text ≠ "") ∧ (st.2.1 = "" ∨ jsTrimStr st.2.1 ≠ "")

/-- One `parseVTT` loop step preserves the invariant. -/
theorem vttStep_inv (st : List TranscriptEntry × String × String) (raw : String)
    (h : VttInv st) : VttInv (vttStep st raw) := by
  obtain ⟨h1, h2⟩ := h
  by_cases hskip : jsTrimStr raw = "WEBVTT" ∨ jsTrimStr raw = "" ∨
      strStartsWith (jsTrimStr raw) "NOTE" = true
  · unfold vttStep
    rw [if_pos hskip]
    exact ⟨h1, h2⟩
  · by_cases harrow : containsSub arrowSep (jsTrimStr raw).data = true
    · unfold vttStep
      rw [if_neg hskip, if_pos harrow]
      constructor
      · intro e he
        by_cases hpend : st.2.1 ≠ "" ∧ st.2.2 ≠ ""
        · rw [if_pos hpend] at he
          rcases List.mem_append.mp he with hin | hnew
          · exact h1 e hin
          · have : e = ⟨st.2.2, jsTrimStr st.2.1⟩ := by simpa using hnew
            subst this
            rcases h2 with hempty | htrim
            · exact absurd hempty hpend.1
            · exact htrim
        · rw [if_neg hpend] at he
          exact h1 e he
      · exact Or.inl rfl
    · unfold vttStep
      rw [if_neg hskip, if_neg harrow]
      refine ⟨h1, Or.inr ?_⟩
      have hline : jsTrimStr raw ≠ "" := fun hcon => hskip (Or.inr (Or.inl hcon))
      have hne : jsTrimL raw.data ≠ [] := by
        intro hnil
        apply hline
        unfold jsTrimStr
        rw [hnil]
      obtain ⟨c, hc, hcs⟩ := jsTrimL_ne_nil_exists hne
      exact jsTrimStr_append_ne ⟨c, hc, hcs⟩

/-- The invariant holds after folding the loop body over any line list. -/
theorem vttFold_inv (lines : List String) (st : List TranscriptEntry × String × String)
    (h : VttInv st) : VttInv (lines.foldl vttStep st) := by
  induction lines generalizing st with
  | nil => exact h
  | cons l ls ih => exact ih (vttStep st l) (vttStep_inv st l h)

/-- C9: every entry produced by either normalizer — the event-JSON parser or
the cue-text parser — has non-empty text; whitespace-only texts are dropped
during normalization. -/
theorem normalizer_entries_nonempty (doc : Option (List Event)) (vtt : String)
    (e : TranscriptEntry) :
    (e ∈ parseTranscriptData doc → e.text ≠ "") ∧
    (e ∈ parseVTT vtt → e.text ≠ "") := by
  constructor
  · intro he
    unfold parseTranscriptData at he
    obtain ⟨ev, _, hev⟩ := List.mem_filterMap.mp he
    cases hs : ev.segs with
    | none => rw [hs] at hev; exact absurd hev (by simp)
    | some segs =>
      rw [hs] at hev
      by_cases ht : eventText segs = ""
      · simp only [ht, if_pos] at hev
        exact absurd hev (by simp)
      · simp only [if_neg ht] at hev
        have : e.text = eventText segs := by
          rw [← Option.some.injEq] at hev
          cases hev
          rfl
        rw [this]
        exact ht
  · intro he
    unfold parseVTT at he
    have hinv := vttFold_inv (splitNlStr vtt) ([], "", "") ⟨by simp, Or.inl rfl⟩
    set st := (splitNlStr vtt).foldl vttStep ([], "", "") with hst
    by_cases hpend : st.2.1 ≠ "" ∧ st.2.2 ≠ ""
    · rw [if_pos hpend] at he
      rcases List.mem_append.mp he with hin | hnew
      · exact hinv.1 e hin
      · have : e = ⟨st.2.2, jsTrimStr st.2.1⟩ := by simpa using hnew
        subst this
        rcases hinv.2 with hempty | htrim
        · exact absurd hempty hpend.1
        · exact htrim
    · rw [if_neg hpend] at he
      exact hinv.1 e he

/-- C9 witness: the single emitted entry of a concrete event document has its
non-empty text certified through the invariant. -/
theorem normalizer_entries_nonempty_witness : ("ab" : String) ≠ "" :=
  (normalizer_entries_nonempty (some [⟨some 65000, some [⟨some "a"⟩, ⟨some "b"⟩]⟩]) ""
    ⟨"1:05", "ab"⟩).1 (by decide)

/-! ## C4 — the shape of a successful `extractVideoId` capture -/

/-- Modelled from the spec (section 4.1): the ID alphabet `[A-Za-z0-9_-]`. -/
def specIdChar (c : Char) : Bool := c.isAlphanum || c == '_' || c == '-'

/-- C4 counterexample: the capture class of the source regex is the negated
class `[^"&?\/\s]`, which is strictly wider than the spec's `[A-Za-z0-9_-]`:
a short link whose path is eleven exclamation marks is captured verbatim. -/
theorem videoId_charset_counterexample :
    extractVideoId "youtu.be/!!!!!!!!!!!" = some "!!!!!!!!!!!" ∧
    ("!!!!!!!!!!!" : String).data.all specIdChar = false := by
  exact ⟨rfl, rfl⟩

/-- A successful capture consists of 11 characters of the capture class. -/
theorem idCapture_shape {t l : List Char} (h : idCapture t = some l) :
    l.length = 11 ∧ l.all idChar = true := by
  unfold idCapture at h
  by_cases hc : (t.take 11).length = 11 ∧ (t.take 11).all idChar
  · rw [if_pos hc] at h
    cases h
    exact ⟨hc.1, hc.2⟩
  · rw [if_neg hc] at h
    exact absurd h (by simp)

/-- A successful position-anchored match yields a capture produced by `idCapture`. -/
theorem findCapture_shape {s l : List Char} (h : findCapture s = some l) :
    ∃ t, idCapture t = some l := by
  unfold findCapture at h
  obtain ⟨rest, hr⟩ := List.head?_eq_some_iff.mp h
  have : l ∈ (reEnds videoIdPre s).filterMap idCapture := by
    rw [hr]
    simp
  obtain ⟨t, _, ht⟩ := List.mem_filterMap.mp this
  exact ⟨t, ht⟩

/-- A successful scan yields a capture produced by `idCapture` at some position. -/
theorem scanVideoId_shape {s l : List Char} (h : scanVideoId s = some l) :
    ∃ t, idCapture t = some l := by
  induction s with
  | nil => simp [scanVideoId] at h
  | cons c cs ih =>
    unfold scanVideoId at h
    cases hf : findCapture (c :: cs) with
    | some r =>
      rw [hf] at h
      cases h
      exact findCapture_shape hf
    | none =>
      rw [hf] at h
      exact ih h

/-- C4 (amended): every non-null value returned by `extractVideoId` is a
string of exactly 11 characters, each drawn from the source's capture class
`[^"&?\/\s]` (not the narrower `[A-Za-z0-9_-]`), being the first capture of
the single pattern; the function is total and pure. -/
theorem extractVideoId_some_shape (url r : String) (h : extractVideoId url = some r) :
    r.length = 11 ∧ r.data.all idChar = true := by
  unfold extractVideoId at h
  obtain ⟨l, hl, hr⟩ := Option.map_eq_some'.mp h
  obtain ⟨t, ht⟩ := scanVideoId_shape hl
  obtain ⟨h11, hall⟩ := idCapture_shape ht
  subst hr
  exact ⟨h11, hall⟩

/-- C4 witness: the amended theorem applied to a concrete short link. -/
theorem extractVideoId_some_shape_witness :
    ("dQw4w9WgXcQ" : String).length = 11 ∧ ("dQw4w9WgXcQ" : String).data.all idChar = true :=
  extractVideoId_some_shape "youtu.be/dQw4w9WgXcQ" "dQw4w9WgXcQ" (by decide)

/-- A character of the spec's ID alphabet differs from any character outside it. -/
theorem specId_ne {c : Char} (h : specIdChar c = true) (x : Char)
    (hx : specIdChar x = false) : ¬(c = x) := by
  intro he
  rw [he, hx] at h
  exact Bool.false_ne_true h

/-- A character of the spec's ID alphabet `[A-Za-z0-9_-]` passes the dot and
not-slash classes, fails the `[?&]` class, lies in the capture class, and is
not a slash. -/
theorem specIdChar_facts {c : Char} (h : specIdChar c = true) :
    dotC c = true ∧ notSlashC c = true ∧ qaC c = false ∧ idChar c = true ∧ ¬(c = '/') := by
  have n1 := specId_ne h '\n' (by decide)
  have n2 := specId_ne h '\r' (by decide)
  have n3 := specId_ne h '\u2028' (by decide)
  have n4 := specId_ne h '\u2029' (by decide)
  have n5 := specId_ne h '/' (by decide)
  have n6 := specId_ne h '?' (by decide)
  have n7 := specId_ne h '&' (by decide)
  have n8 := specId_ne h '"' (by decide)
  have nsp : isJsSpace c = false := by
    cases hs : isJsSpace c
    · rfl
    · exfalso
      have hall : ∀ x ∈ jsSpaceChars, specIdChar x = false := by decide
      unfold isJsSpace at hs
      have hmem : c ∈ jsSpaceChars := List.elem_iff.mp hs
      rw [hall c hmem] at h
      exact Bool.false_ne_true h
  refine ⟨?_, ?_, ?_, ?_, n5⟩
  · simp [dotC, n1, n2, n3, n4]
  · simp [notSlashC, n5]
  · simp [qaC, n6, n7]
  · simp [idChar, n8, n7, n6, n5, nsp]

/-- The scan advances past any position whose character is not `y`: both
alternatives of the pattern open with a literal starting in `y`. -/
theorem scanVideoId_cons_ne {c : Char} {cs : List Char} (h : ¬(c = 'y')) :
    scanVideoId (c :: cs) = scanVideoId cs := by
  have hf : findCapture (c :: cs) = none := by
    simp [findCapture, videoIdPre, reEnds,
      (show ("youtube.com/" : String).data =
        ['y','o','u','t','u','b','e','.','c','o','m','/'] from rfl),
      (show ("youtu.be/" : String).data = ['y','o','u','t','u','.','b','e','/'] from rfl),
      litEnds, h]
  simp [scanVideoId, hf]

set_option maxHeartbeats 2000000 in
/-- On a canonical watch-page URL the pattern matches at the host position via
the `.*[?&]v=` alternative and captures exactly the 11 ID characters. -/
theorem capture_watch11 (c1 c2 c3 c4 c5 c6 c7 c8 c9 c10 c11 : Char)
    (h1 : specIdChar c1 = true) (h2 : specIdChar c2 = true) (h3 : specIdChar c3 = true)
    (h4 : specIdChar c4 = true) (h5 : specIdChar c5 = true) (h6 : specIdChar c6 = true)
    (h7 : specIdChar c7 = true) (h8 : specIdChar c8 = true) (h9 : specIdChar c9 = true)
    (h10 : specIdChar c10 = true) (h11 : specIdChar c11 = true) :
    scanVideoId ("https://www.youtube.com/watch?v=".data ++
        [c1,c2,c3,c4,c5,c6,c7,c8,c9,c10,c11]) =
      some [c1,c2,c3,c4,c5,c6,c7,c8,c9,c10,c11] := by
  obtain ⟨d1, s1, q1, i1, n1⟩ := specIdChar_facts h1
  obtain ⟨d2, s2, q2, i2, n2⟩ := specIdChar_facts h2
  obtain ⟨d3, s3, q3, i3, n3⟩ := specIdChar_facts h3
  obtain ⟨d4, s4, q4, i4, n4⟩ := specIdChar_facts h4
  obtain ⟨d5, s5, q5, i5, n5⟩ := specIdChar_facts h5
  obtain ⟨d6, s6, q6, i6, n6⟩ := specIdChar_facts h6
  obtain ⟨d7, s7, q7, i7, n7⟩ := specIdChar_facts h7
  obtain ⟨d8, s8, q8, i8, n8⟩ := specIdChar_facts h8
  obtain ⟨d9, s9, q9, i9, n9⟩ := specIdChar_facts h9
  obtain ⟨d10, s10, q10, i10, n10⟩ := specIdChar_facts h10
  obtain ⟨d11, s11, q11, i11, n11⟩ := specIdChar_facts h11
  rw [show ("https://www.youtube.com/watch?v=" : String).data =
    ['h','t','t','p','s',':','/','/','w','w','w','.','y','o','u','t','u','b','e','.','c','o','m','/','w','a','t','c','h','?','v','='] from rfl]
  simp only [List.cons_append, List.nil_append]
  rw [scanVideoId_cons_ne (by decide), scanVideoId_cons_ne (by decide),
      scanVideoId_cons_ne (by decide), scanVideoId_cons_ne (by decide),
      scanVideoId_cons_ne (by decide), scanVideoId_cons_ne (by decide),
      scanVideoId_cons_ne (by decide), scanVideoId_cons_ne (by decide),
      scanVideoId_cons_ne (by decide), scanVideoId_cons_ne (by decide),
      scanVideoId_cons_ne (by decide), scanVideoId_cons_ne (by decide)]
  simp +decide [scanVideoId, findCapture, videoIdPre, reEnds, litEnds, starEnds, plusEnds, idCapture,
    (show ("youtube.com/" : String).data =
      ['y','o','u','t','u','b','e','.','c','o','m','/'] from rfl),
    (show ("youtu.be/" : String).data = ['y','o','u','t','u','.','b','e','/'] from rfl),
    (show ("/" : String).data = ['/'] from rfl),
    (show ("v" : String).data = ['v'] from rfl),
    (show ("e" : String).data = ['e'] from rfl),
    (show ("mbed" : String).data = ['m','b','e','d'] from rfl),
    (show ("v=" : String).data = ['v','='] from rfl),
    d1, d2, d3, d4, d5, d6, d7, d8, d9, d10, d11,
    s1, s2, s3, s4, s5, s6, s7, s8, s9, s10, s11,
    q1, q2, q3, q4, q5, q6, q7, q8, q9, q10, q11,
    i1, i2, i3, i4, i5, i6, i7, i8, i9, i10, i11,
    n1, n2, n3, n4, n5, n6, n7, n8, n9, n10, n11]

set_option maxHeartbeats 2000000 in
/-- On a short-link URL the `youtu.be/` alternative matches and captures
exactly the 11 ID characters. -/
theorem capture_short11 (c1 c2 c3 c4 c5 c6 c7 c8 c9 c10 c11 : Char)
    (h1 : specIdChar c1 = true)
    (h2 : specIdChar c2 = true)
    (h3 : specIdChar c3 = true)
    (h4 : specIdChar c4 = true)
    (h5 : specIdChar c5 = true)
    (h6 : specIdChar c6 = true)
    (h7 : specIdChar c7 = true)
    (h8 : specIdChar c8 = true)
    (h9 : specIdChar c9 = true)
    (h10 : specIdChar c10 = true)
    (h11 : specIdChar c11 = true) :
    scanVideoId ("https://youtu.be/".data ++
        [c1,c2,c3,c4,c5,c6,c7,c8,c9,c10,c11]) =
      some [c1,c2,c3,c4,c5,c6,c7,c8,c9,c10,c11] := by
  obtain ⟨d1, s1, q1, i1, n1⟩ := specIdChar_facts h1
  obtain ⟨d2, s2, q2, i2, n2⟩ := specIdChar_facts h2
  obtain ⟨d3, s3, q3, i3, n3⟩ := specIdChar_facts h3
  obtain ⟨d4, s4, q4, i4, n4⟩ := specIdChar_facts h4
  obtain ⟨d5, s5, q5, i5, n5⟩ := specIdChar_facts h5
  obtain ⟨d6, s6, q6, i6, n6⟩ := specIdChar_facts h6
  obtain ⟨d7, s7, q7, i7, n7⟩ := specIdChar_facts h7
  obtain ⟨d8, s8, q8, i8, n8⟩ := specIdChar_facts h8
  obtain ⟨d9, s9, q9, i9, n9⟩ := specIdChar_facts h9
  obtain ⟨d10, s10, q10, i10, n10⟩ := specIdChar_facts h10
  obtain ⟨d11, s11, q11, i11, n11⟩ := specIdChar_facts h11
  rw [show ("https://youtu.be/" : String).data =
    ['h','t','t','p','s',':','/','/','y','o','u','t','u','.','b','e','/'] from rfl]
  simp only [List.cons_append, List.nil_append]
  rw [scanVideoId_cons_ne (by decide),
      scanVideoId_cons_ne (by decide),
      scanVideoId_cons_ne (by decide),
      scanVideoId_cons_ne (by decide),
      scanVideoId_cons_ne (by decide),
      scanVideoId_cons_ne (by decide),
      scanVideoId_cons_ne (by decide),
      scanVideoId_cons_ne (by decide)]
  simp +decide [scanVideoId, findCapture, videoIdPre, reEnds, litEnds, starEnds, plusEnds, idCapture,
    (show ("youtube.com/" : String).data =
      ['y','o','u','t','u','b','e','.','c','o','m','/'] from rfl),
    (show ("youtu.be/" : String).data = ['y','o','u','t','u','.','b','e','/'] from rfl),
    (show ("/" : String).data = ['/'] from rfl),
    (show ("v" : String).data = ['v'] from rfl),
    (show ("e" : String).data = ['e'] from rfl),
    (show ("mbed" : String).data = ['m','b','e','d'] from rfl),
    (show ("v=" : String).data = ['v','='] from rfl),
    d1, d2, d3, d4, d5, d6, d7, d8, d9, d10, d11,
    s1, s2, s3, s4, s5, s6, s7, s8, s9, s10, s11,
    q1, q2, q3, q4, q5, q6, q7, q8, q9, q10, q11,
    i1, i2, i3, i4, i5, i6, i7, i8, i9, i10, i11,
    n1, n2, n3, n4, n5, n6, n7, n8, n9, n10, n11]

set_option maxHeartbeats 2000000 in
/-- On an embed URL the `(?:v|e(?:mbed)?)\\/` alternative matches and captures
exactly the 11 ID characters. -/
theorem capture_embed11 (c1 c2 c3 c4 c5 c6 c7 c8 c9 c10 c11 : Char)
    (h1 : specIdChar c1 = true)
    (h2 : specIdChar c2 = true)
    (h3 : specIdChar c3 = true)
    (h4 : specIdChar c4 = true)
    (h5 : specIdChar c5 = true)
    (h6 : specIdChar c6 = true)
    (h7 : specIdChar c7 = true)
    (h8 : specIdChar c8 = true)
    (h9 : specIdChar c9 = true)
    (h10 : specIdChar c10 = true)
    (h11 : specIdChar c11 = true) :
    scanVideoId ("https://www.youtube.com/embed/".data ++
        [c1,c2,c3,c4,c5,c6,c7,c8,c9,c10,c11]) =
      some [c1,c2,c3,c4,c5,c6,c7,c8,c9,c10,c11] := by
  obtain ⟨d1, s1, q1, i1, n1⟩ := specIdChar_facts h1
  obtain ⟨d2, s2, q2, i2, n2⟩ := specIdChar_facts h2
  obtain ⟨d3, s3, q3, i3, n3⟩ := specIdChar_facts h3
  obtain ⟨d4, s4, q4, i4, n4⟩ := specIdChar_facts h4
  obtain ⟨d5, s5, q5, i5, n5⟩ := specIdChar_facts h5
  obtain ⟨d6, s6, q6, i6, n6⟩ := specIdChar_facts h6
  obtain ⟨d7, s7, q7, i7, n7⟩ := specIdChar_facts h7
  obtain ⟨d8, s8, q8, i8, n8⟩ := specIdChar_facts h8
  obtain ⟨d9, s9, q9, i9, n9⟩ := specIdChar_facts h9
  obtain ⟨d10, s10, q10, i10, n10⟩ := specIdChar_facts h10
  obtain ⟨d11, s11, q11, i11, n11⟩ := specIdChar_facts h11
  rw [show ("https://www.youtube.com/embed/" : String).data =
    ['h','t','t','p','s',':','/','/','w','w','w','.','y','o','u','t','u','b','e','.','c','o','m','/','e','m','b','e','d','/'] from rfl]
  simp only [List.cons_append, List.nil_append]
  rw [scanVideoId_cons_ne (by decide),
      scanVideoId_cons_ne (by decide),
      scanVideoId_cons_ne (by decide),
      scanVideoId_cons_ne (by decide),
      scanVideoId_cons_ne (by decide),
      scanVideoId_cons_ne (by decide),
      scanVideoId_cons_ne (by decide),
      scanVideoId_cons_ne (by decide),
      scanVideoId_cons_ne (by decide),
      scanVideoId_cons_ne (by decide),
      scanVideoId_cons_ne (by decide),
      scanVideoId_cons_ne (by decide)]
  simp +decide [scanVideoId, findCapture, videoIdPre, reEnds, litEnds, starEnds, plusEnds, idCapture,
    (show ("youtube.com/" : String).data =
      ['y','o','u','t','u','b','e','.','c','o','m','/'] from rfl),
    (show ("youtu.be/" : String).data = ['y','o','u','t','u','.','b','e','/'] from rfl),
    (show ("/" : String).data = ['/'] from rfl),
    (show ("v" : String).data = ['v'] from rfl),
    (show ("e" : String).data = ['e'] from rfl),
    (show ("mbed" : String).data = ['m','b','e','d'] from rfl),
    (show ("v=" : String).data = ['v','='] from rfl),
    d1, d2, d3, d4, d5, d6, d7, d8, d9, d10, d11,
    s1, s2, s3, s4, s5, s6, s7, s8, s9, s10, s11,
    q1, q2, q3, q4, q5, q6, q7, q8, q9, q10, q11,
    i1, i2, i3, i4, i5, i6, i7, i8, i9, i10, i11,
    n1, n2, n3, n4, n5, n6, n7, n8, n9, n10, n11]

set_option maxHeartbeats 2000000 in
/-- On a `/v/` path URL the `(?:v|e(?:mbed)?)\\/` alternative matches and
captures exactly the 11 ID characters. -/
theorem capture_vpath11 (c1 c2 c3 c4 c5 c6 c7 c8 c9 c10 c11 : Char)
    (h1 : specIdChar c1 = true)
    (h2 : specIdChar c2 = true)
    (h3 : specIdChar c3 = true)
    (h4 : specIdChar c4 = true)
    (h5 : specIdChar c5 = true)
    (h6 : specIdChar c6 = true)
    (h7 : specIdChar c7 = true)
    (h8 : specIdChar c8 = true)
    (h9 : specIdChar c9 = true)
    (h10 : specIdChar c10 = true)
    (h11 : specIdChar c11 = true) :
    scanVideoId ("https://www.youtube.com/v/".data ++
        [c1,c2,c3,c4,c5,c6,c7,c8,c9,c10,c11]) =
      some [c1,c2,c3,c4,c5,c6,c7,c8,c9,c10,c11] := by
  obtain ⟨d1, s1, q1, i1, n1⟩ := specIdChar_facts h1
  obtain ⟨d2, s2, q2, i2, n2⟩ := specIdChar_facts h2
  obtain ⟨d3, s3, q3, i3, n3⟩ := specIdChar_facts h3
  obtain ⟨d4, s4, q4, i4, n4⟩ := specIdChar_facts h4
  obtain ⟨d5, s5, q5, i5, n5⟩ := specIdChar_facts h5
  obtain ⟨d6, s6, q6, i6, n6⟩ := specIdChar_facts h6
  obtain ⟨d7, s7, q7, i7, n7⟩ := specIdChar_facts h7
  obtain ⟨d8, s8, q8, i8, n8⟩ := specIdChar_facts h8
  obtain ⟨d9, s9, q9, i9, n9⟩ := specIdChar_facts h9
  obtain ⟨d10, s10, q10, i10, n10⟩ := specIdChar_facts h10
  obtain ⟨d11, s11, q11, i11, n11⟩ := specIdChar_facts h11
  rw [show ("https://www.youtube.com/v/" : String).data =
    ['h','t','t','p','s',':','/','/','w','w','w','.','y','o','u','t','u','b','e','.','c','o','m','/','v','/'] from rfl]
  simp only [List.cons_append, List.nil_append]
  rw [scanVideoId_cons_ne (by decide),
      scanVideoId_cons_ne (by decide),
      scanVideoId_cons_ne (by decide),
      scanVideoId_cons_ne (by decide),
      scanVideoId_cons_ne (by decide),
      scanVideoId_cons_ne (by decide),
      scanVideoId_cons_ne (by decide),
      scanVideoId_cons_ne (by decide),
      scanVideoId_cons_ne (by decide),
      scanVideoId_cons_ne (by decide),
      scanVideoId_cons_ne (by decide),
      scanVideoId_cons_ne (by decide)]
  simp +decide [scanVideoId, findCapture, videoIdPre, reEnds, litEnds, starEnds, plusEnds, idCapture,
    (show ("youtube.com/" : String).data =
      ['y','o','u','t','u','b','e','.','c','o','m','/'] from rfl),
    (show ("youtu.be/" : String).data = ['y','o','u','t','u','.','b','e','/'] from rfl),
    (show ("/" : String).data = ['/'] from rfl),
    (show ("v" : String).data = ['v'] from rfl),
    (show ("e" : String).data = ['e'] from rfl),
    (show ("mbed" : String).data = ['m','b','e','d'] from rfl),
    (show ("v=" : String).data = ['v','='] from rfl),
    d1, d2, d3, d4, d5, d6, d7, d8, d9, d10, d11,
    s1, s2, s3, s4, s5, s6, s7, s8, s9, s10, s11,
    q1, q2, q3, q4, q5, q6, q7, q8, q9, q10, q11,
    i1, i2, i3, i4, i5, i6, i7, i8, i9, i10, i11,
    n1, n2, n3, n4, n5, n6, n7, n8, n9, n10, n11]

/-- A literal fails to match wherever it is not a prefix of the input. -/
theorem litEnds_nil_of_not_pre {l : List Char} :
    ∀ {s : List Char}, hasPre l s = false → litEnds l s = [] := by
  induction l with
  | nil => intro s h; simp [hasPre] at h
  | cons a as ih =>
    intro s h
    cases s with
    | nil => rfl
    | cons b bs =>
      unfold litEnds
      by_cases hb : b = a
      · rw [if_pos hb]
        apply ih
        subst hb
        simpa [hasPre] using h
      · rw [if_neg hb]

/-- Without one of the two host literals as a prefix, the anchored match fails. -/
theorem findCapture_none_of_not_pre {s : List Char}
    (h1 : hasPre "youtube.com/".data s = false)
    (h2 : hasPre "youtu.be/".data s = false) :
    findCapture s = none := by
  simp [findCapture, videoIdPre, reEnds, litEnds_nil_of_not_pre h1,
    litEnds_nil_of_not_pre h2]

/-- Without one of the two host literals as a substring, the whole scan fails. -/
theorem scanVideoId_none {s : List Char}
    (h1 : containsSub "youtube.com/".data s = false)
    (h2 : containsSub "youtu.be/".data s = false) :
    scanVideoId s = none := by
  induction s with
  | nil => rfl
  | cons c cs ih =>
    unfold containsSub at h1 h2
    rw [Bool.or_eq_false_iff] at h1 h2
    have hf := findCapture_none_of_not_pre h1.1 h2.1
    simp [scanVideoId, hf, ih h1.2 h2.2]

/-- Destructuring of a list of length 11. -/
theorem exists_eleven {α : Type} (l : List α) (h : l.length = 11) :
    ∃ a1 a2 a3 a4 a5 a6 a7 a8 a9 a10 a11,
      l = [a1, a2, a3, a4, a5, a6, a7, a8, a9, a10, a11] := by
  cases l with | nil => simp at h | cons a1 l =>
  cases l with | nil => simp at h | cons a2 l =>
  cases l with | nil => simp at h | cons a3 l =>
  cases l with | nil => simp at h | cons a4 l =>
  cases l with | nil => simp at h | cons a5 l =>
  cases l with | nil => simp at h | cons a6 l =>
  cases l with | nil => simp at h | cons a7 l =>
  cases l with | nil => simp at h | cons a8 l =>
  cases l with | nil => simp at h | cons a9 l =>
  cases l with | nil => simp at h | cons a10 l =>
  cases l with | nil => simp at h | cons a11 l =>
  cases l with
  | nil => exact ⟨a1, a2, a3, a4, a5, a6, a7, a8, a9, a10, a11, rfl⟩
  | cons a12 l => simp at h

/-- C5: for every 11-character ID over the spec alphabet, each accepted URL
shape — canonical watch page, short link, embed path and `/v/` path — yields
exactly that ID, and any string containing neither platform host literal
yields `null` rather than an error. -/
theorem extractVideoId_url_shapes (id : String) (s : String)
    (h11 : id.length = 11) (hgood : id.data.all specIdChar = true) :
    extractVideoId ("https://www.youtube.com/watch?v=" ++ id) = some id ∧
    extractVideoId ("https://youtu.be/" ++ id) = some id ∧
    extractVideoId ("https://www.youtube.com/embed/" ++ id) = some id ∧
    extractVideoId ("https://www.youtube.com/v/" ++ id) = some id ∧
    (containsSub "youtube.com/".data s.data = false →
      containsSub "youtu.be/".data s.data = false →
      extractVideoId s = none) := by
  obtain ⟨c1, c2, c3, c4, c5, c6, c7, c8, c9, c10, c11, hdata⟩ :=
    exists_eleven id.data h11
  rw [hdata, List.all_cons, List.all_cons, List.all_cons, List.all_cons, List.all_cons,
    List.all_cons, List.all_cons, List.all_cons, List.all_cons, List.all_cons,
    List.all_cons] at hgood
  simp only [Bool.and_eq_true, List.all_nil] at hgood
  obtain ⟨g1, g2, g3, g4, g5, g6, g7, g8, g9, g10, g11, -⟩ := hgood
  have hmk : String.mk [c1,c2,c3,c4,c5,c6,c7,c8,c9,c10,c11] = id := by
    rw [← hdata]
  refine ⟨?_, ?_, ?_, ?_, ?_⟩
  · show (scanVideoId ("https://www.youtube.com/watch?v=" ++ id).data).map String.mk = some id
    rw [String.data_append, hdata,
      capture_watch11 c1 c2 c3 c4 c5 c6 c7 c8 c9 c10 c11 g1 g2 g3 g4 g5 g6 g7 g8 g9 g10 g11,
      Option.map_some', hmk]
  · show (scanVideoId ("https://youtu.be/" ++ id).data).map String.mk = some id
    rw [String.data_append, hdata,
      capture_short11 c1 c2 c3 c4 c5 c6 c7 c8 c9 c10 c11 g1 g2 g3 g4 g5 g6 g7 g8 g9 g10 g11,
      Option.map_some', hmk]
  · show (scanVideoId ("https://www.youtube.com/embed/" ++ id).data).map String.mk = some id
    rw [String.data_append, hdata,
      capture_embed11 c1 c2 c3 c4 c5 c6 c7 c8 c9 c10 c11 g1 g2 g3 g4 g5 g6 g7 g8 g9 g10 g11,
      Option.map_some', hmk]
  · show (scanVideoId ("https://www.youtube.com/v/" ++ id).data).map String.mk = some id
    rw [String.data_append, hdata,
      capture_vpath11 c1 c2 c3 c4 c5 c6 c7 c8 c9 c10 c11 g1 g2 g3 g4 g5 g6 g7 g8 g9 g10 g11,
      Option.map_some', hmk]
  · intro hs1 hs2
    show (scanVideoId s.data).map String.mk = none
    rw [scanVideoId_none hs1 hs2]
    rfl

/-- C5 witness: the shapes theorem applied at a concrete ID and a concrete
foreign URL. -/
theorem extractVideoId_url_shapes_witness :
    extractVideoId "https://www.youtube.com/watch?v=dQw4w9WgXcQ" = some "dQw4w9WgXcQ" ∧
    extractVideoId "https://mysite.example/page" = none := by
  constructor
  · exact (extractVideoId_url_shapes "dQw4w9WgXcQ" "" (by decide) (by decide)).1
  · exact (extractVideoId_url_shapes "dQw4w9WgXcQ" "https://mysite.example/page"
      (by decide) (by decide)).2.2.2.2 (by decide) (by decide)
